import Mathlib

/-!
Verification of the FastVLM Unity iOS bridge (`FastVLMNative.h`).

The repository ships only the C header: the public ABI surface of the
bridge. The header itself has no logic, so this development has two layers:

1. An exact transcription of the header's declarations (`headerDecls`),
   used for claims about the ABI itself (return types, observables).
2. A state machine for the bridge runtime behind the header. The runtime
   is not in the repository, so every definition of that layer is
   modelled from the spec (model lifecycle manager, inference session
   controller, generation config store, callback marshaler), as an
   event-driven transition system: host calls and backend notifications
   are input events, callback invocations are outputs, and queries are
   pure functions of the state.
-/

namespace FastVLM

/-! ### Layer 1: the ABI surface, transcribed from the header -/

/-- A C type appearing in the signatures of `FastVLMNative.h`. -/
inductive CType where
  | cVoid
  | cBool
  | cInt
  | cFloat
  | cUCharPtr
  | cConstCharPtr
  | cLoadProgressCallback
  | cInferenceCallback
deriving DecidableEq, Repr

/-- A C function declaration: name, return type, argument types. -/
structure CDecl where
  name : String
  ret : CType
  args : List CType
deriving DecidableEq, Repr

/-- The seven entry points declared in
`src/UnityPlugin/Runtime/Plugins/iOS/FastVLMNative.h`, lines 18-24,
transcribed in order. -/
def headerDecls : List CDecl :=
  [ ⟨"FastVLM_Initialize", CType.cVoid, []⟩,
    ⟨"FastVLM_LoadModel", CType.cVoid, [CType.cInt, CType.cLoadProgressCallback]⟩,
    ⟨"FastVLM_SetGenerationParameters", CType.cVoid, [CType.cFloat, CType.cInt]⟩,
    ⟨"FastVLM_InferAsync", CType.cVoid,
      [CType.cUCharPtr, CType.cInt, CType.cInt, CType.cConstCharPtr, CType.cInferenceCallback]⟩,
    ⟨"FastVLM_Cancel", CType.cVoid, []⟩,
    ⟨"FastVLM_IsModelLoaded", CType.cBool, []⟩,
    ⟨"FastVLM_IsInferenceRunning", CType.cBool, []⟩ ]

/-- The state-mutating entry points of the bridge. -/
def mutatingEntryPoints : List String :=
  [ "FastVLM_Initialize", "FastVLM_LoadModel", "FastVLM_SetGenerationParameters",
    "FastVLM_InferAsync", "FastVLM_Cancel" ]

/-- Return type of the named entry point, looked up in the header. -/
def retOf (nm : String) : Option CType :=
  (headerDecls.find? (fun d => d.name == nm)).map CDecl.ret

/-! ### Layer 2: the bridge runtime, modelled from the spec -/

/-- Modelled from the spec: the Model Lifecycle Manager's state machine
`unloaded → loading → loaded`, with `loading → load-failed → unloaded` on
failure. The spec makes `load-failed` reset to `unloaded` immediately
(allowing retry), so the transient `load-failed` is collapsed into the
step that returns to `unloaded`. -/
inductive ModelState where
  | unloaded
  | loading
  | loaded
deriving DecidableEq, Repr

/-- Modelled from the spec: the Inference Session Controller's state
machine `idle → running → {completed, failed, cancelled} → idle`, where
`cancelling` is a transient sub-state of `running` entered on a cancel
request. The terminal states `completed`/`failed`/`cancelled` return to
`idle` in the same step that delivers the terminal callback, so the
retained states are `idle`, `running`, `cancelling`; which terminal
outcome occurred is carried by the emitted callback payload. -/
inductive SessionState where
  | idle
  | running
  | cancelling
deriving DecidableEq, Repr

/-- Modelled from the spec: the payload of a terminal `InferenceCallback`
invocation — success (with result text), failure, or cancellation, the
three distinguishable terminal outcomes. -/
inductive InferOutcome where
  | success (result : String)
  | failure
  | cancelled
deriving DecidableEq, Repr

/-- Modelled from the spec: the Generation Config Store's contents
`{temperature: float, in a bounded valid range; maxTokens: positive
integer bounded by a backend-imposed ceiling}`. Temperature is embedded
as a rational. -/
structure GenParams where
  temperature : ℚ
  maxTokens : Int
deriving DecidableEq, Repr

/-- Modelled from the spec: lower bound of the valid temperature range.
The spec fixes a bounded range without naming its endpoints; the concrete
bounds are abstracted as constants, chosen so that temperature 2.5 from
the spec's concrete scenario 4 is out of range. -/
def tempMin : ℚ := 0

/-- Modelled from the spec: upper bound of the valid temperature range
(see `tempMin`). -/
def tempMax : ℚ := 2

/-- Modelled from the spec: the backend-imposed ceiling on `maxTokens`. -/
def maxTokensCeiling : Int := 2048

/-- Modelled from the spec: validity of a generation-parameter pair —
temperature within its bounded range, maxTokens a positive integer not
above the backend ceiling. -/
def paramsValid (t : ℚ) (m : Int) : Bool :=
  decide (tempMin ≤ t) && decide (t ≤ tempMax) &&
    decide (1 ≤ m) && decide (m ≤ maxTokensCeiling)

/-- Modelled from the spec: the number of supported model variants.
`modelType` is a closed enumeration of supported variants; the concrete
size is abstracted as a constant. -/
def numModelVariants : Int := 3

/-- Modelled from the spec: membership of a `modelType` value in the
closed enumeration of supported variants. -/
def variantValid (v : Int) : Bool :=
  decide (0 ≤ v) && decide (v < numModelVariants)

/-- Modelled from the spec: the default generation parameters installed
by initialization (a valid pair; the spec does not fix the values). -/
def defaultParams : GenParams := ⟨7/10, 256⟩

/-- Modelled from the spec: the bridge's process-scoped context. It holds
the Model Lifecycle Manager state, the Inference Session Controller state
and the Generation Config Store. Load operations and inference sessions
carry fresh numeric identifiers (`currentLoad`/`sessionId`, allocated
from `nextLoad`/`nextSession`) so that emitted callbacks can be
attributed to the request that supplied the callback pointer. The
`captured` field is the in-flight session's atomically captured
`GenerationParameters` snapshot. -/
structure BridgeState where
  initDone : Bool
  modelState : ModelState
  currentVariant : Int
  currentLoad : Nat
  nextLoad : Nat
  sessionState : SessionState
  sessionId : Nat
  nextSession : Nat
  params : GenParams
  captured : GenParams
deriving DecidableEq, Repr

/-- Modelled from the spec: the input events of the bridge runtime — the
five mutating host entry points, plus the three notifications the opaque
backend can deliver on the worker context (a load progress tick, the end
of a load, the end of an inference run). The image buffer pointer is
abstracted away (the bridge copies it out before returning); width,
height and prompt are kept. -/
inductive Event where
  | init
  | loadModel (variant : Int)
  | setGenerationParameters (temperature : ℚ) (maxTokens : Int)
  | inferAsync (width : Int) (height : Int) (prompt : String)
  | cancel
  | backendLoadProgress (p : ℚ)
  | backendLoadFinished (ok : Bool)
  | backendInferFinished (ok : Bool) (result : String)
deriving DecidableEq, Repr

/-- Modelled from the spec: an observable callback invocation marshaled
to the host, tagged with the identifier of the request it belongs to.
`loadProgress` is one `LoadProgressCallback` tick; `loadTerminal` is the
terminal load signal (progress 1.0 on success, the sentinel negative
value on failure); `inferResult` is the single terminal
`InferenceCallback` invocation. -/
inductive Output where
  | loadProgress (loadId : Nat) (progress : ℚ)
  | loadTerminal (loadId : Nat) (ok : Bool)
  | inferResult (sessionId : Nat) (outcome : InferOutcome)
deriving DecidableEq, Repr

/-- Modelled from the spec: one atomic transition of the bridge. Every
entry point validates its preconditions and either rejects synchronously
(state unchanged, no output) or transitions and dispatches; backend
notifications are resolved by the marshaler into host callbacks. All
transitions are serialized (the spec requires mutual exclusion around
every state transition), so the runtime is a deterministic step function
on interleavings of host calls and backend notifications:
* `init` is idempotent process setup: the first call zeroes the lifecycle
  state and installs default parameters; later calls are no-ops.
* `loadModel` is rejected (no state change, no callback) if already
  `loading`, if the variant is outside the closed enumeration, or if an
  inference session is active (the spec treats load-during-inference as a
  precondition violation); otherwise it transitions to `loading` under a
  fresh load identifier.
* `setGenerationParameters` validates ranges and rejects out-of-range
  values with no state change.
* `inferAsync` requires the model `loaded`, no active session, and
  well-formed dimensions; on acceptance it creates the single
  `InferenceSession` (fresh identifier, `running`, parameters captured);
  otherwise it is rejected synchronously with no state change, no
  callback and no queuing.
* `cancel` is a no-op unless `running`; on `running` it transitions to
  `cancelling` and returns immediately — the terminal callback is
  delivered when the backend unwinds.
* `backendLoadProgress` is marshaled to the load's progress callback
  while `loading`, otherwise dropped.
* `backendLoadFinished` ends a load: success transitions to `loaded` and
  emits the terminal success signal; failure returns to `unloaded`
  (through the transient `load-failed`) and emits the failure signal.
* `backendInferFinished` ends the session: from `running` it reports the
  backend's own outcome; from `cancelling` it reports cancellation
  regardless of the backend outcome (cancellation-wins race policy); with
  no session it is dropped (no callback after the handle is gone). -/
def step (s : BridgeState) : Event → BridgeState × List Output
  | Event.init =>
      if s.initDone then (s, [])
      else
        ({ s with
            initDone := true
            modelState := ModelState.unloaded
            sessionState := SessionState.idle
            params := defaultParams }, [])
  | Event.loadModel v =>
      if s.modelState = ModelState.loading ∨ variantValid v = false ∨
          s.sessionState ≠ SessionState.idle then
        (s, [])
      else
        ({ s with
            modelState := ModelState.loading
            currentVariant := v
            currentLoad := s.nextLoad
            nextLoad := s.nextLoad + 1 }, [])
  | Event.setGenerationParameters t m =>
      if paramsValid t m then ({ s with params := ⟨t, m⟩ }, []) else (s, [])
  | Event.inferAsync w h _prompt =>
      if s.modelState = ModelState.loaded ∧ s.sessionState = SessionState.idle ∧
          0 < w ∧ 0 < h then
        ({ s with
            sessionState := SessionState.running
            sessionId := s.nextSession
            nextSession := s.nextSession + 1
            captured := s.params }, [])
      else (s, [])
  | Event.cancel =>
      if s.sessionState = SessionState.running then
        ({ s with sessionState := SessionState.cancelling }, [])
      else (s, [])
  | Event.backendLoadProgress p =>
      if s.modelState = ModelState.loading then
        (s, [Output.loadProgress s.currentLoad p])
      else (s, [])
  | Event.backendLoadFinished ok =>
      if s.modelState = ModelState.loading then
        if ok then
          ({ s with modelState := ModelState.loaded }, [Output.loadTerminal s.currentLoad true])
        else
          ({ s with modelState := ModelState.unloaded }, [Output.loadTerminal s.currentLoad false])
      else (s, [])
  | Event.backendInferFinished ok r =>
      match s.sessionState with
      | SessionState.idle => (s, [])
      | SessionState.running =>
          ({ s with sessionState := SessionState.idle },
           [Output.inferResult s.sessionId (if ok then InferOutcome.success r else InferOutcome.failure)])
      | SessionState.cancelling =>
          ({ s with sessionState := SessionState.idle },
           [Output.inferResult s.sessionId InferOutcome.cancelled])

/-- Modelled from the spec: running the bridge on a finite interleaving
of host calls and backend notifications, collecting the marshaled
callback invocations in delivery order. -/
def run (s : BridgeState) : List Event → BridgeState × List Output
  | [] => (s, [])
  | e :: es =>
      ((run (step s e).1 es).1, (step s e).2 ++ (run (step s e).1 es).2)

/-- Modelled from the spec: the pristine pre-`Initialize` context. -/
def initState : BridgeState :=
  { initDone := false
    modelState := ModelState.unloaded
    currentVariant := 0
    currentLoad := 0
    nextLoad := 0
    sessionState := SessionState.idle
    sessionId := 0
    nextSession := 0
    params := defaultParams
    captured := defaultParams }

/-- Modelled from the spec: `FastVLM_IsModelLoaded` — a non-blocking pure
query, true iff the lifecycle state is exactly `loaded`. -/
def FastVLM_IsModelLoaded (s : BridgeState) : Bool :=
  s.modelState = ModelState.loaded

/-- Modelled from the spec: `FastVLM_IsInferenceRunning` — a non-blocking
pure query, true iff the session state is `running` or `cancelling`. -/
def FastVLM_IsInferenceRunning (s : BridgeState) : Bool :=
  s.sessionState = SessionState.running ∨ s.sessionState = SessionState.cancelling

/-- Modelled from the spec: the number of `InferenceSession` objects in
existence — `idle` means none, `running`/`cancelling` mean exactly the
one in-flight session. -/
def sessionCount (s : BridgeState) : Nat :=
  match s.sessionState with
  | SessionState.idle => 0
  | _ => 1

/-- The in-flight session, if any, identified by its session id. -/
def sessionActive (n : Nat) (s : BridgeState) : Prop :=
  s.sessionState ≠ SessionState.idle ∧ s.sessionId = n

instance (n : Nat) (s : BridgeState) : Decidable (sessionActive n s) := by
  unfold sessionActive; infer_instance

/-- How many terminal `InferenceCallback` invocations in `outs` belong to
session `n`. -/
def countResult (n : Nat) (outs : List Output) : Nat :=
  outs.countP (fun o => match o with
    | Output.inferResult m _ => decide (m = n)
    | _ => false)

/-- The progress values delivered to the load `id`'s progress callback,
in delivery order (terminal signals excluded). -/
def deliveredProgress (id : Nat) (outs : List Output) : List ℚ :=
  outs.filterMap (fun o => match o with
    | Output.loadProgress i p => if i = id then some p else none
    | _ => none)

/-- Modelled from the spec: the backend's event sequence for one load —
a finite run of progress ticks followed by the end-of-load notification
(success or failure). -/
def loadTrace (ps : List ℚ) (ok : Bool) : List Event :=
  ps.map Event.backendLoadProgress ++ [Event.backendLoadFinished ok]

/-! ### Basic lemmas about outputs and runs -/

theorem countResult_append (n : Nat) (a b : List Output) :
    countResult n (a ++ b) = countResult n a + countResult n b :=
  List.countP_append _ _ _

theorem run_cons (s : BridgeState) (e : Event) (es : List Event) :
    run s (e :: es)
      = ((run (step s e).1 es).1, (step s e).2 ++ (run (step s e).1 es).2) :=
  rfl

theorem run_append (s : BridgeState) (a b : List Event) :
    run s (a ++ b)
      = ((run (run s a).1 b).1, (run s a).2 ++ (run (run s a).1 b).2) := by
  induction a generalizing s with
  | nil => simp [run]
  | cons e es ih => simp [run, ih]

theorem step_initDone_true (s : BridgeState) (e : Event)
    (hi : s.initDone = true) : (step s e).1.initDone = true := by
  obtain ⟨i, ms, cv, cl, nl, ss, sid, ns, pp, cp⟩ := s
  cases e <;> cases ms <;> cases ss <;>
    simp only [step] <;> (try split_ifs) <;> simp_all

/-! ### Session accounting (claim C2) -/

theorem step_dead_session (n : Nat) (s : BridgeState) (e : Event)
    (hi : s.initDone = true) (hlt : n < s.nextSession)
    (hdead : ¬ sessionActive n s) :
    countResult n (step s e).2 = 0 ∧ ¬ sessionActive n (step s e).1 ∧
      n < (step s e).1.nextSession := by
  obtain ⟨i, ms, cv, cl, nl, ss, sid, ns, pp, cp⟩ := s
  cases e <;> cases ms <;> cases ss <;> simp only [step]
  all_goals try split_ifs
  all_goals try simp_all [sessionActive, countResult]
  all_goals omega

theorem step_live_session (n : Nat) (s : BridgeState) (e : Event)
    (hi : s.initDone = true) (hact : sessionActive n s)
    (hlt : n < s.nextSession) :
    (countResult n (step s e).2 = 0 ∧ sessionActive n (step s e).1 ∧
        n < (step s e).1.nextSession)
    ∨ (countResult n (step s e).2 = 1 ∧ ¬ sessionActive n (step s e).1 ∧
        n < (step s e).1.nextSession) := by
  obtain ⟨i, ms, cv, cl, nl, ss, sid, ns, pp, cp⟩ := s
  cases e <;> cases ms <;> cases ss <;>
    simp only [step] <;> (try split_ifs) <;>
    simp_all [sessionActive, countResult]

theorem run_dead_session (n : Nat) (evs : List Event) (s : BridgeState)
    (hi : s.initDone = true) (hlt : n < s.nextSession)
    (hdead : ¬ sessionActive n s) :
    countResult n (run s evs).2 = 0 ∧ ¬ sessionActive n (run s evs).1 := by
  induction evs generalizing s with
  | nil => exact ⟨rfl, by simpa [run] using hdead⟩
  | cons e es ih =>
      obtain ⟨h0, h1, h2⟩ := step_dead_session n s e hi hlt hdead
      have hi' := step_initDone_true s e hi
      have hrest := ih (step s e).1 hi' h2 h1
      refine ⟨?_, by simpa [run] using hrest.2⟩
      simp [run_cons, countResult_append, h0, hrest.1]

theorem run_live_session (n : Nat) (evs : List Event) (s : BridgeState)
    (hi : s.initDone = true) (hact : sessionActive n s)
    (hlt : n < s.nextSession) :
    countResult n (run s evs).2
      = if sessionActive n (run s evs).1 then 0 else 1 := by
  induction evs generalizing s with
  | nil => simp [run, countResult, hact]
  | cons e es ih =>
      have hi' := step_initDone_true s e hi
      rcases step_live_session n s e hi hact hlt with ⟨h0, h1, h2⟩ | ⟨h0, h1, h2⟩
      · have hrest := ih (step s e).1 hi' h1 h2
        simp [run_cons, countResult_append, h0, hrest]
      · have hrest := run_dead_session n es (step s e).1 hi' h2 h1
        simp [run_cons, countResult_append, h0, hrest.1, hrest.2]

/-! ### Load accounting (claims C6 and C8) -/

theorem step_loaded_origin (s : BridgeState) (e : Event)
    (h : (step s e).1.modelState = ModelState.loaded) :
    ((step s e).1.currentLoad = s.currentLoad ∧
        s.modelState = ModelState.loaded)
    ∨ Output.loadTerminal (step s e).1.currentLoad true ∈ (step s e).2 := by
  obtain ⟨i, ms, cv, cl, nl, ss, sid, ns, pp, cp⟩ := s
  cases e <;> cases ms <;> cases ss <;>
    simp only [step] at h ⊢ <;> (try split_ifs at h ⊢) <;> simp_all

theorem run_loaded_terminal (evs : List Event) (s : BridgeState)
    (h : (run s evs).1.modelState = ModelState.loaded) :
    ((run s evs).1.currentLoad = s.currentLoad ∧
        s.modelState = ModelState.loaded)
    ∨ Output.loadTerminal (run s evs).1.currentLoad true ∈ (run s evs).2 := by
  induction evs generalizing s with
  | nil => exact Or.inl ⟨rfl, h⟩
  | cons e es ih =>
      have hstate : (run s (e :: es)).1 = (run (step s e).1 es).1 := by
        rw [run_cons]
      have houts : (run s (e :: es)).2
          = (step s e).2 ++ (run (step s e).1 es).2 := by
        rw [run_cons]
      rcases ih (step s e).1 (by rw [hstate] at h; exact h) with ⟨hcl, hml⟩ | hmem
      · rcases step_loaded_origin s e hml with ⟨hcl2, hml2⟩ | hmem2
        · exact Or.inl ⟨by rw [hstate, hcl, hcl2], hml2⟩
        · refine Or.inr ?_
          rw [houts, hstate, hcl]
          exact List.mem_append_left _ hmem2
      · refine Or.inr ?_
        rw [houts, hstate]
        exact List.mem_append_right _ hmem

theorem run_progress_ticks (s : BridgeState) (ps : List ℚ)
    (hm : s.modelState = ModelState.loading) :
    run s (ps.map Event.backendLoadProgress)
      = (s, ps.map (Output.loadProgress s.currentLoad)) := by
  induction ps with
  | nil => simp [run]
  | cons q qs ih =>
      have hstep : step s (Event.backendLoadProgress q)
          = (s, [Output.loadProgress s.currentLoad q]) := by
        simp [step, hm]
      simp [run_cons, hstep, ih]

/-! ### Theorems -/

/-- C1: a `FastVLM_InferAsync` call made while a session is in `running`
or `cancelling` state is rejected: the state is unchanged (so no second
`InferenceSession` is created and the session count stays at one) and no
output is emitted (neither the new call's callback nor the active
session's callback is invoked). -/
theorem c1_inferAsync_rejected_while_session_active
    (s : BridgeState) (w h : Int) (p : String)
    (hs : s.sessionState = SessionState.running ∨
      s.sessionState = SessionState.cancelling) :
    step s (Event.inferAsync w h p) = (s, []) := by
  have hcond : ¬(s.modelState = ModelState.loaded ∧
      s.sessionState = SessionState.idle ∧ 0 < w ∧ 0 < h) := by
    rcases hs with h1 | h1 <;> simp [h1]
  simp [step, hcond]

theorem c1_witness :
    step { initState with
            initDone := true
            modelState := ModelState.loaded
            sessionState := SessionState.running } (Event.inferAsync 224 224 "other")
      = ({ initState with
            initDone := true
            modelState := ModelState.loaded
            sessionState := SessionState.running }, []) :=
  c1_inferAsync_rejected_while_session_active _ 224 224 "other" (Or.inl rfl)

/-- C2: an accepted `FastVLM_InferAsync` call (model `loaded`, no active
session, well-formed dimensions) creates the in-flight session under the
fresh identifier `s.nextSession`, and over every subsequent interleaving
of host calls and backend notifications the supplied callback receives a
terminal result exactly once when the session has reached a terminal
state (which happens exactly when the backend delivers its end-of-run
notification, success, failure or post-cancel unwind), zero times while
the run is still in flight, and in no interleaving more than once. -/
theorem c2_accepted_inferAsync_terminal_callback_exactly_once
    (s : BridgeState) (w h : Int) (p : String) (evs : List Event)
    (hi : s.initDone = true) (hm : s.modelState = ModelState.loaded)
    (hs : s.sessionState = SessionState.idle) (hw : 0 < w) (hh : 0 < h) :
    sessionActive s.nextSession (step s (Event.inferAsync w h p)).1 ∧
    countResult s.nextSession (run (step s (Event.inferAsync w h p)).1 evs).2
      = (if sessionActive s.nextSession
            (run (step s (Event.inferAsync w h p)).1 evs).1
         then 0 else 1) ∧
    countResult s.nextSession (run (step s (Event.inferAsync w h p)).1 evs).2
      ≤ 1 := by
  have hstep : (step s (Event.inferAsync w h p)).1
      = { s with
            sessionState := SessionState.running
            sessionId := s.nextSession
            nextSession := s.nextSession + 1
            captured := s.params } := by
    simp [step, hm, hs, hw, hh]
  have hact : sessionActive s.nextSession (step s (Event.inferAsync w h p)).1 := by
    rw [hstep]; exact ⟨by simp, rfl⟩
  have hi' : (step s (Event.inferAsync w h p)).1.initDone = true := by
    rw [hstep]; simpa using hi
  have hlt : s.nextSession < (step s (Event.inferAsync w h p)).1.nextSession := by
    rw [hstep]; simp
  have hcount := run_live_session s.nextSession evs _ hi' hact hlt
  refine ⟨hact, hcount, ?_⟩
  rw [hcount]
  split <;> omega

theorem c2_witness :
    sessionActive 0
      (step { initState with
                initDone := true
                modelState := ModelState.loaded }
          (Event.inferAsync 224 224 "describe")).1 ∧
    countResult 0
        (run (step { initState with
                       initDone := true
                       modelState := ModelState.loaded }
                (Event.inferAsync 224 224 "describe")).1
             [Event.backendInferFinished true "a cat"]).2
      = (if sessionActive 0
              (run (step { initState with
                             initDone := true
                             modelState := ModelState.loaded }
                      (Event.inferAsync 224 224 "describe")).1
                   [Event.backendInferFinished true "a cat"]).1
         then 0 else 1) ∧
    countResult 0
        (run (step { initState with
                       initDone := true
                       modelState := ModelState.loaded }
                (Event.inferAsync 224 224 "describe")).1
             [Event.backendInferFinished true "a cat"]).2
      ≤ 1 :=
  c2_accepted_inferAsync_terminal_callback_exactly_once
    _ 224 224 "describe" [Event.backendInferFinished true "a cat"]
    rfl rfl rfl (by decide) (by decide)

/-- C4: a `FastVLM_InferAsync` call whose preconditions are violated
(model not `loaded`, or a session currently `running`/`cancelling`, i.e.
not `idle`) fails synchronously: state unchanged, no callback emitted,
and — since the state is unchanged and the model has no request queue —
the run over any subsequent events is exactly as if the call had never
been made (nothing was queued). -/
theorem c4_inferAsync_precondition_violation_no_effect_no_queue
    (s : BridgeState) (w h : Int) (p : String) (evs : List Event)
    (hviol : s.modelState ≠ ModelState.loaded ∨
      s.sessionState ≠ SessionState.idle) :
    step s (Event.inferAsync w h p) = (s, []) ∧
      run s (Event.inferAsync w h p :: evs) = run s evs := by
  have hcond : ¬(s.modelState = ModelState.loaded ∧
      s.sessionState = SessionState.idle ∧ 0 < w ∧ 0 < h) := by
    rcases hviol with h1 | h1 <;> intro hc <;> exact h1 (by tauto)
  have hstep : step s (Event.inferAsync w h p) = (s, []) := by
    simp [step, hcond]
  exact ⟨hstep, by simp [run, hstep]⟩

theorem c4_witness :
    step { initState with initDone := true } (Event.inferAsync 224 224 "describe")
      = ({ initState with initDone := true }, []) ∧
      run { initState with initDone := true }
          (Event.inferAsync 224 224 "describe" :: [Event.cancel])
        = run { initState with initDone := true } [Event.cancel] :=
  c4_inferAsync_precondition_violation_no_effect_no_queue
    _ 224 224 "describe" [Event.cancel] (Or.inl (by decide))

/-- C7: a `FastVLM_LoadModel` call made while the lifecycle state is
already `loading`, or whose `modelType` is outside the closed enumeration
of supported variants, is rejected synchronously: state unchanged and no
output emitted (the progress callback is never invoked). -/
theorem c7_loadModel_rejected_when_loading_or_unknown_variant
    (s : BridgeState) (v : Int)
    (h : s.modelState = ModelState.loading ∨ variantValid v = false) :
    step s (Event.loadModel v) = (s, []) := by
  have hcond : s.modelState = ModelState.loading ∨ variantValid v = false ∨
      s.sessionState ≠ SessionState.idle := by tauto
  simp [step, hcond]

theorem c7_witness :
    step { initState with initDone := true } (Event.loadModel (-1))
      = ({ initState with initDone := true }, []) :=
  c7_loadModel_rejected_when_loading_or_unknown_variant _ (-1)
    (Or.inr (by decide))

/-- C9: a `FastVLM_SetGenerationParameters` call with an out-of-range
temperature or maxTokens is rejected with no state change and no output,
so the stored parameters are untouched; consequently a subsequent
accepted `FastVLM_InferAsync` captures the prior valid parameters. -/
theorem c9_setGenerationParameters_out_of_range_rejected
    (s : BridgeState) (t : ℚ) (m : Int) (w h : Int) (p : String)
    (hbad : paramsValid t m = false)
    (hm : s.modelState = ModelState.loaded)
    (hs : s.sessionState = SessionState.idle) (hw : 0 < w) (hh : 0 < h) :
    step s (Event.setGenerationParameters t m) = (s, []) ∧
      (step (step s (Event.setGenerationParameters t m)).1
          (Event.inferAsync w h p)).1.captured = s.params := by
  have hstep : step s (Event.setGenerationParameters t m) = (s, []) := by
    simp [step, hbad]
  refine ⟨hstep, ?_⟩
  rw [hstep]
  simp [step, hm, hs, hw, hh]

theorem c9_witness :
    step { initState with
            initDone := true
            modelState := ModelState.loaded }
        (Event.setGenerationParameters (5/2) 10000)
      = ({ initState with
            initDone := true
            modelState := ModelState.loaded }, []) ∧
      (step (step { initState with
                      initDone := true
                      modelState := ModelState.loaded }
              (Event.setGenerationParameters (5/2) 10000)).1
          (Event.inferAsync 224 224 "describe")).1.captured
        = ({ initState with
              initDone := true
              modelState := ModelState.loaded } : BridgeState).params :=
  c9_setGenerationParameters_out_of_range_rejected
    _ (5/2) 10000 224 224 "describe"
    (by norm_num [paramsValid, tempMin, tempMax, maxTokensCeiling]) rfl rfl
    (by decide) (by decide)

/-- C5: for every state of the bridge, `FastVLM_IsInferenceRunning`
returns true if and only if exactly one `InferenceSession` exists and its
state is `running` or `cancelling`. The query is a pure function of the
state (non-blocking). -/
theorem c5_isInferenceRunning_iff_one_session_running_or_cancelling
    (s : BridgeState) :
    FastVLM_IsInferenceRunning s = true ↔
      (sessionCount s = 1 ∧
        (s.sessionState = SessionState.running ∨
          s.sessionState = SessionState.cancelling)) := by
  cases h : s.sessionState <;>
    simp [FastVLM_IsInferenceRunning, sessionCount, h]

/-- C3: `FastVLM_Cancel` on a `running` session returns at once with no
output — it only moves the session to `cancelling`, without waiting for
the backend to unwind and without invoking any callback synchronously —
and afterwards, whenever the backend's inference finishes (including a
natural completion `ok = true` racing with the cancellation), the
session's callback is invoked with the cancellation outcome and the
session returns to `idle`: the race is resolved deterministically,
cancellation wins. -/
theorem c3_cancel_nonblocking_cancellation_wins
    (s : BridgeState) (ok : Bool) (r : String)
    (hs : s.sessionState = SessionState.running) :
    step s Event.cancel = ({ s with sessionState := SessionState.cancelling }, []) ∧
      step { s with sessionState := SessionState.cancelling }
          (Event.backendInferFinished ok r)
        = ({ s with sessionState := SessionState.idle },
           [Output.inferResult s.sessionId InferOutcome.cancelled]) := by
  exact ⟨by simp [step, hs], rfl⟩

theorem c3_witness :
    step { initState with
            initDone := true
            modelState := ModelState.loaded
            sessionState := SessionState.running } Event.cancel
      = ({ initState with
            initDone := true
            modelState := ModelState.loaded
            sessionState := SessionState.cancelling }, []) ∧
      step { initState with
              initDone := true
              modelState := ModelState.loaded
              sessionState := SessionState.cancelling }
          (Event.backendInferFinished true "natural completion")
        = ({ initState with
              initDone := true
              modelState := ModelState.loaded
              sessionState := SessionState.idle },
           [Output.inferResult 0 InferOutcome.cancelled]) :=
  c3_cancel_nonblocking_cancellation_wins _ true "natural completion" rfl

/-- C6: over every run from the pristine state, `FastVLM_IsModelLoaded`
returns true if and only if the lifecycle state is exactly `loaded`, and
whenever it returns true the terminal success signal of the load that
produced the current model has already been delivered to the progress
callback — it never returns true before that signal. The query is a pure
function of the state (non-blocking). -/
theorem c6_isModelLoaded_iff_loaded_after_terminal_success
    (evs : List Event) :
    (FastVLM_IsModelLoaded (run initState evs).1 = true ↔
        (run initState evs).1.modelState = ModelState.loaded) ∧
    (FastVLM_IsModelLoaded (run initState evs).1 = true →
        Output.loadTerminal (run initState evs).1.currentLoad true
          ∈ (run initState evs).2) := by
  constructor
  · simp [FastVLM_IsModelLoaded]
  · intro h
    have hml : (run initState evs).1.modelState = ModelState.loaded := by
      simpa [FastVLM_IsModelLoaded] using h
    rcases run_loaded_terminal evs initState hml with ⟨_, hbad⟩ | hmem
    · exact absurd hbad (by simp [initState])
    · exact hmem

theorem c6_witness :
    Output.loadTerminal
        (run initState [Event.init, Event.loadModel 0,
            Event.backendLoadFinished true]).1.currentLoad true
      ∈ (run initState [Event.init, Event.loadModel 0,
            Event.backendLoadFinished true]).2 :=
  (c6_isModelLoaded_iff_loaded_after_terminal_success
      [Event.init, Event.loadModel 0, Event.backendLoadFinished true]).2
    (by decide)

/-- C8: for an accepted load (lifecycle state `loading`), given the
backend's progress report — a sequence of ticks in [0, 1], monotonically
non-decreasing, followed by its end-of-load notification — the bridge
delivers to the progress callback exactly those values, in order, each in
[0, 1] and non-decreasing, and the delivery sequence ends with the
terminal success-or-failure signal. -/
theorem c8_load_progress_in_range_monotone_ends_terminal
    (s : BridgeState) (ps : List ℚ) (ok : Bool)
    (hm : s.modelState = ModelState.loading)
    (hrange : ∀ q ∈ ps, 0 ≤ q ∧ q ≤ 1)
    (hmono : List.Chain' (fun a b => a ≤ b) ps) :
    (run s (loadTrace ps ok)).2
      = ps.map (Output.loadProgress s.currentLoad)
          ++ [Output.loadTerminal s.currentLoad ok] ∧
    deliveredProgress s.currentLoad (run s (loadTrace ps ok)).2 = ps ∧
    (∀ q ∈ deliveredProgress s.currentLoad (run s (loadTrace ps ok)).2,
        0 ≤ q ∧ q ≤ 1) ∧
    List.Chain' (fun a b => a ≤ b)
      (deliveredProgress s.currentLoad (run s (loadTrace ps ok)).2) ∧
    (run s (loadTrace ps ok)).2.getLast?
      = some (Output.loadTerminal s.currentLoad ok) := by
  have hticks := run_progress_ticks s ps hm
  have houts : (run s (loadTrace ps ok)).2
      = ps.map (Output.loadProgress s.currentLoad)
          ++ [Output.loadTerminal s.currentLoad ok] := by
    rw [loadTrace, run_append, hticks]
    cases ok <;> simp [run, step, hm]
  have hdel : deliveredProgress s.currentLoad (run s (loadTrace ps ok)).2
      = ps := by
    rw [houts]
    simp [deliveredProgress, List.filterMap_append, List.filterMap_map,
      Function.comp_def]
  refine ⟨houts, hdel, ?_, ?_, ?_⟩
  · rw [hdel]; exact hrange
  · rw [hdel]; exact hmono
  · rw [houts]; simp

theorem c8_witness :
    (run { initState with
             initDone := true
             modelState := ModelState.loading }
         (loadTrace [(0 : ℚ), 1/2, 1] true)).2
      = [(0 : ℚ), 1/2, 1].map (Output.loadProgress 0)
          ++ [Output.loadTerminal 0 true] ∧
    deliveredProgress 0
        (run { initState with
                 initDone := true
                 modelState := ModelState.loading }
             (loadTrace [(0 : ℚ), 1/2, 1] true)).2
      = [(0 : ℚ), 1/2, 1] ∧
    (∀ q ∈ deliveredProgress 0
        (run { initState with
                 initDone := true
                 modelState := ModelState.loading }
             (loadTrace [(0 : ℚ), 1/2, 1] true)).2,
        0 ≤ q ∧ q ≤ 1) ∧
    List.Chain' (fun a b => a ≤ b)
      (deliveredProgress 0
        (run { initState with
                 initDone := true
                 modelState := ModelState.loading }
             (loadTrace [(0 : ℚ), 1/2, 1] true)).2) ∧
    (run { initState with
             initDone := true
             modelState := ModelState.loading }
         (loadTrace [(0 : ℚ), 1/2, 1] true)).2.getLast?
      = some (Output.loadTerminal 0 true) :=
  c8_load_progress_in_range_monotone_ends_terminal
    _ [(0 : ℚ), 1/2, 1] true rfl
    (by
      intro q hq
      simp only [List.mem_cons, List.not_mem_nil, or_false] at hq
      rcases hq with rfl | rfl | rfl <;> norm_num)
    (by
      simp only [List.chain'_cons, List.chain'_singleton, and_true]
      norm_num)

/-- C10: in the header's ABI, every state-mutating entry point
(`FastVLM_Initialize`, `FastVLM_LoadModel`,
`FastVLM_SetGenerationParameters`, `FastVLM_InferAsync`,
`FastVLM_Cancel`) is declared to return void — so acceptance and
synchronous rejection are indistinguishable through the return value —
and the only declarations with a non-void return are the two bool
queries `FastVLM_IsModelLoaded` and `FastVLM_IsInferenceRunning`, the
only synchronous observables the ABI offers. -/
theorem c10_mutating_entry_points_return_void_queries_bool :
    retOf "FastVLM_Initialize" = some CType.cVoid ∧
    retOf "FastVLM_LoadModel" = some CType.cVoid ∧
    retOf "FastVLM_SetGenerationParameters" = some CType.cVoid ∧
    retOf "FastVLM_InferAsync" = some CType.cVoid ∧
    retOf "FastVLM_Cancel" = some CType.cVoid ∧
    (mutatingEntryPoints.all fun nm => retOf nm == some CType.cVoid) = true ∧
    (headerDecls.filter (fun d => !(d.ret == CType.cVoid))).map CDecl.name
      = ["FastVLM_IsModelLoaded", "FastVLM_IsInferenceRunning"] ∧
    (headerDecls.filter (fun d => !(d.ret == CType.cVoid))).map CDecl.ret
      = [CType.cBool, CType.cBool] := by
  decide

end FastVLM
